import Mathlib

/-!
Shallow embedding of `src/zlib-wrapper/src/main.rs`.

The repository is a thin safe wrapper over the native zlib library.  The
native routines (`compress`, `compressBound`, `uncompress`, `gzopen`,
`gzread`, `gzeof`, `gzclose`) are only *declared* in the source (extern
blocks); their bodies live in the external library.  We therefore model the
native layer as an explicit oracle (`Zlib`, `GzSpec`) whose behaviour is
constrained, where a claim needs it, by hypotheses taken from the spec's
interface contract, and we embed the wrapper functions themselves faithfully
from the Rust source.

Bytes are `Nat`, byte buffers are `List Nat`, C `int` return values are
`Int`.  Uninitialized memory obtained from `Vec::with_capacity` is modelled
by an arbitrary function `mem : Nat → Nat` giving the byte at each offset of
a fresh allocation.
-/

/-- Model of the native buffer codec (`compress`, `compressBound`,
`uncompress` from zlib, declared extern in the source).  `compressFn cap src`
returns the C status code, the bytes the native call wrote into the
destination buffer, and the value it stored into the in/out length parameter
(whose input value was the capacity `cap`).  Likewise for `uncompressFn`. -/
structure Zlib where
  compressBound : Nat → Nat
  compressFn : Nat → List Nat → Int × List Nat × Nat
  uncompressFn : Nat → List Nat → Int × List Nat × Nat

/-- The contents of a fresh allocation of `cap` bytes after the native call
wrote the prefix `written`: the written bytes followed by uninitialized
bytes drawn from `mem`, clipped to the allocated region (writes past the
allocation are undefined behaviour and not representable). -/
def alloc (mem : Nat → Nat) (cap : Nat) (written : List Nat) : List Nat :=
  (written ++ (List.range cap).map mem).take cap

/-- Embedding of `zlip_compress` (main.rs lines 74–90): query
`compressBound`, allocate that capacity uninitialized, call the native
`compress`, and `set_len` the vector to the updated in/out length.  The
status code returned by the native call is discarded, exactly as in the
source. -/
def zlip_compress (z : Zlib) (mem : Nat → Nat) (source : List Nat) : List Nat :=
  let source_len := source.length
  let dest_len := z.compressBound source_len
  let r := z.compressFn dest_len source
  (alloc mem dest_len r.2.1).take r.2.2

/-- Embedding of `zlib_uncompress` (main.rs lines 92–109): allocate
`max_dest_len` bytes uninitialized, call the native `uncompress`, and
`set_len` to the updated in/out length.  The status code is discarded,
exactly as in the source. -/
def zlib_uncompress (z : Zlib) (mem : Nat → Nat) (source : List Nat) (max_dest_len : Nat) :
    List Nat :=
  let r := z.uncompressFn max_dest_len source
  (alloc mem max_dest_len r.2.1).take r.2.2

/-- Rust's `as usize` cast of a (sign-extended) C `int`: two's-complement
reduction modulo 2^64. -/
def castUsize (i : Int) : Nat := (i % 18446744073709551616).toNat

/-- A UTF-8 continuation byte (0x80–0xBF). -/
def isCont (b : Nat) : Bool := 128 ≤ b && b ≤ 191

/-- The validity check performed by `std::str::from_utf8`: strict UTF-8,
rejecting overlong encodings, surrogates and code points above U+10FFFF. -/
def validUTF8 : List Nat → Bool
  | [] => true
  | [b0] => b0 < 128
  | b0 :: b1 :: t1 =>
    if b0 < 128 then validUTF8 (b1 :: t1)
    else if 194 ≤ b0 && b0 ≤ 223 then isCont b1 && validUTF8 t1
    else
      match t1 with
      | [] => false
      | b2 :: t2 =>
        if b0 = 224 then ((160 ≤ b1 && b1 ≤ 191) && isCont b2) && validUTF8 t2
        else if ((225 ≤ b0 && b0 ≤ 236) || b0 = 238) || b0 = 239 then
          (isCont b1 && isCont b2) && validUTF8 t2
        else if b0 = 237 then ((128 ≤ b1 && b1 ≤ 159) && isCont b2) && validUTF8 t2
        else
          match t2 with
          | [] => false
          | b3 :: t3 =>
            if b0 = 240 then
              (((144 ≤ b1 && b1 ≤ 191) && isCont b2) && isCont b3) && validUTF8 t3
            else if 241 ≤ b0 && b0 ≤ 243 then
              ((isCont b1 && isCont b2) && isCont b3) && validUTF8 t3
            else if b0 = 244 then
              (((128 ≤ b1 && b1 ≤ 143) && isCont b2) && isCont b3) && validUTF8 t3
            else false

/-- Model of an open gz handle: the list of results of the successive
`gzread` calls the native library will answer, each a pair of the C return
value and the bytes the call writes at the front of the caller's buffer.
`gzeof` reports end of stream exactly when this list is exhausted. -/
structure GzSpec where
  openFile : List Nat → Option (List (Int × List Nat))

/-- One run of the `while gzeof(file) == 0` loop of `read_gz_file`
(main.rs lines 157–161), threading the 4096-byte stack buffer and the
accumulated contents.  Returns the contents (`some`) or the panic outcome
(`none`), paired with whether `gzclose` was reached.  Each iteration casts
the `gzread` return value to `usize`, slices the buffer to that length
(panicking if it exceeds the buffer), validates UTF-8 (panicking at the
`unwrap` otherwise) and appends the decoded chunk. -/
def readRun : List (Int × List Nat) → List Nat → List Nat → Option (List Nat) × Bool
  | [], _buffer, contents => (some contents, true)
  | (ret, chunk) :: rest, buffer, contents =>
    let n := castUsize ret
    let buffer' := chunk ++ buffer.drop chunk.length
    if n > buffer'.length then (none, false)
    else
      let s := buffer'.take n
      if validUTF8 s then readRun rest buffer' (contents ++ s)
      else (none, false)

/-- Embedding of `read_gz_file` (main.rs lines 146–166).  `CString::new`
panics on an interior NUL byte in the name; a null handle from `gzopen`
panics; otherwise the read loop runs over the handle with the zero-filled
4096-byte buffer.  The result is the accumulated contents (as UTF-8 bytes
of the returned `String`) or `none` for a panic, paired with whether
`gzclose` was executed. -/
def read_gz_file (g : GzSpec) (name : List Nat) : Option (List Nat) × Bool :=
  if name.contains 0 then (none, false)
  else
    match g.openFile name with
    | none => (none, false)
    | some reads => readRun reads (List.replicate 4096 0) []

/-- A native model conforming to the spec's contract: compression is the
identity codec (a legal model, since the spec only promises a bound with
slack, not size reduction), `compressBound n = n + 12`, and both directions
report `Z_BUF_ERROR` (-5) with a truncated partial write when the
destination capacity is too small. -/
def specZlib : Zlib where
  compressBound := fun n => n + 12
  compressFn := fun cap src =>
    if src.length ≤ cap then (0, src, src.length) else (-5, src.take cap, cap)
  uncompressFn := fun cap src =>
    if src.length ≤ cap then (0, src, src.length) else (-5, src.take cap, cap)

/-- A native model whose `compress` fails with `Z_MEM_ERROR` (-4), writing
nothing and leaving the in/out length parameter at the capacity it was
given. -/
def errZlib : Zlib where
  compressBound := fun n => n + 12
  compressFn := fun cap _ => (-4, [], cap)
  uncompressFn := fun cap _ => (-4, [], cap)

/-! ### Helper lemmas -/

lemma alloc_length (mem : Nat → Nat) (cap : Nat) (w : List Nat) :
    (alloc mem cap w).length = cap := by
  simp [alloc, List.length_take]

lemma alloc_take (mem : Nat → Nat) (cap : Nat) (w : List Nat) (h : w.length ≤ cap) :
    (alloc mem cap w).take w.length = w := by
  unfold alloc
  rw [List.take_take, inf_eq_left.mpr h, List.take_left]

lemma length_zlip_compress_le (z : Zlib) (mem : Nat → Nat) (s : List Nat) :
    (zlip_compress z mem s).length ≤ z.compressBound s.length := by
  have h : ∀ (w : List Nat) (dl : Nat),
      ((alloc mem (z.compressBound s.length) w).take dl).length ≤ z.compressBound s.length := by
    intro w dl
    rw [List.length_take, alloc_length]
    exact inf_le_right
  exact h _ _

lemma length_zlib_uncompress_le (z : Zlib) (mem : Nat → Nat) (s : List Nat)
    (max_dest_len : Nat) :
    (zlib_uncompress z mem s max_dest_len).length ≤ max_dest_len := by
  have h : ∀ (w : List Nat) (dl : Nat),
      ((alloc mem max_dest_len w).take dl).length ≤ max_dest_len := by
    intro w dl
    rw [List.length_take, alloc_length]
    exact inf_le_right
  exact h _ _

lemma zlip_compress_eq (z : Zlib) (mem : Nat → Nat) (s c : List Nat)
    (h : z.compressFn (z.compressBound s.length) s = (0, c, c.length))
    (hle : c.length ≤ z.compressBound s.length) :
    zlip_compress z mem s = c := by
  simp only [zlip_compress, h]
  exact alloc_take mem _ c hle

lemma zlib_uncompress_eq (z : Zlib) (mem : Nat → Nat) (c s : List Nat) (max_dest_len : Nat)
    (h : z.uncompressFn max_dest_len c = (0, s, s.length))
    (hle : s.length ≤ max_dest_len) :
    zlib_uncompress z mem c max_dest_len = s := by
  simp only [zlib_uncompress, h]
  exact alloc_take mem _ s hle

lemma castUsize_natCast (n : Nat) (h : n < 18446744073709551616) :
    castUsize (n : Int) = n := by
  unfold castUsize
  rw [Int.emod_eq_of_lt (Int.natCast_nonneg n) (by exact_mod_cast h), Int.toNat_natCast]

lemma read_gz_file_open (g : GzSpec) (name : List Nat) (reads : List (Int × List Nat))
    (h0 : name.contains 0 = false) (hopen : g.openFile name = some reads) :
    read_gz_file g name = readRun reads (List.replicate 4096 0) [] := by
  simp only [read_gz_file, h0, hopen, Bool.false_eq_true, if_false]

lemma readRun_cons (ret : Int) (c : List Nat) (rest : List (Int × List Nat))
    (buffer contents : List Nat) (hret : ret = (c.length : Int))
    (hbuf : buffer.length = 4096) (hc : c.length ≤ 4095) :
    readRun ((ret, c) :: rest) buffer contents =
      if validUTF8 c then readRun rest (c ++ buffer.drop c.length) (contents ++ c)
      else (none, false) := by
  have hcast : castUsize ret = c.length := by
    rw [hret]
    exact castUsize_natCast _ (by omega)
  have hblen : (c ++ buffer.drop c.length).length = 4096 := by
    rw [List.length_append, List.length_drop, hbuf]
    omega
  have htake : (c ++ buffer.drop c.length).take c.length = c := List.take_left c _
  have hcond : ¬ c.length > 4096 := by omega
  simp only [readRun, hcast, hblen, htake]
  rw [if_neg hcond]

lemma readRun_chunks (chunks : List (List Nat)) : ∀ buffer contents : List Nat,
    buffer.length = 4096 → (∀ c ∈ chunks, c.length ≤ 4095) →
    (∀ c ∈ chunks, validUTF8 c = true) →
    readRun (chunks.map fun c => ((c.length : Int), c)) buffer contents =
      (some (contents ++ chunks.flatten), true) := by
  induction chunks with
  | nil =>
    intro buffer contents _ _ _
    simp [readRun]
  | cons c cs ih =>
    intro buffer contents hbuf hlen hutf
    rw [List.map_cons,
      readRun_cons _ c _ buffer contents rfl hbuf (hlen c (List.mem_cons_self c cs)),
      if_pos (hutf c (List.mem_cons_self c cs)),
      ih (c ++ buffer.drop c.length) (contents ++ c)
        (by
          have hc := hlen c (List.mem_cons_self c cs)
          rw [List.length_append, List.length_drop, hbuf]
          omega)
        (fun d hd => hlen d (List.mem_cons_of_mem c hd))
        (fun d hd => hutf d (List.mem_cons_of_mem c hd))]
    simp [List.append_assoc]

/-! ### Concrete gz oracles used as evidence and witnesses -/

/-- A gz file whose decompressed text arrives in two chunks. -/
def gC5 : GzSpec := ⟨fun _ => some [((2 : Int), [104, 105]), ((1 : Int), [33])]⟩

/-- A gz file whose first chunk is the lone byte 0xFF, which is not valid
UTF-8, with a further read still pending (the stream is not at its end). -/
def gC6 : GzSpec := ⟨fun _ => some [((1 : Int), [255]), ((1 : Int), [104])]⟩

/-- A gz file whose first `gzread` call reports the native error code -3. -/
def gC8 : GzSpec := ⟨fun _ => some [((-3 : Int), ([] : List Nat))]⟩

/-- A gz file on which `gzopen` fails, returning a null handle. -/
def gNone : GzSpec := ⟨fun _ => none⟩

/-- A gz file whose only chunk is the lone continuation byte 0xC8, which is
not valid UTF-8. -/
def gBad : GzSpec := ⟨fun _ => some [((1 : Int), [200])]⟩

/-! ### Claims -/

/-- Claim C1: for every byte sequence `s` and every capacity `max_dest_len`
large enough for the native decompressor to succeed, uncompressing the
result of compressing `s` returns exactly `s`.  Stated for any native model
whose `compress` succeeds within the `compressBound` capacity reporting the
true compressed size, and whose `uncompress` at capacity `max_dest_len`
recovers `s`; the wrapper then returns exactly `s`. -/
theorem c1_round_trip (z : Zlib) (mem mem' : Nat → Nat) (s c : List Nat) (max_dest_len : Nat)
    (h1 : z.compressFn (z.compressBound s.length) s = (0, c, c.length))
    (h2 : c.length ≤ z.compressBound s.length)
    (h3 : z.uncompressFn max_dest_len c = (0, s, s.length))
    (h4 : s.length ≤ max_dest_len) :
    zlib_uncompress z mem' (zlip_compress z mem s) max_dest_len = s := by
  rw [zlip_compress_eq z mem s c h1 h2, zlib_uncompress_eq z mem' c s max_dest_len h3 h4]

/-- Witness for C1 at a concrete conforming native model and input. -/
theorem c1_round_trip_witness :
    zlib_uncompress specZlib (fun _ => 0)
      (zlip_compress specZlib (fun _ => 0) [104, 105, 33]) 100 = [104, 105, 33] :=
  c1_round_trip specZlib (fun _ => 0) (fun _ => 0) [104, 105, 33] [104, 105, 33] 100
    (by decide) (by decide) (by decide) (by decide)

/-- Claim C2 (code-bug evidence): when the native `compress` fails with
`Z_MEM_ERROR` (-4), writing nothing and leaving the in/out length at the
capacity, `zlip_compress` does not fail: it returns the 15 uninitialized
bytes of the allocation (here the byte 170 at every offset) as if they were
compressed data.  The status code is ignored. -/
theorem c2_compress_status_ignored :
    (errZlib.compressFn (errZlib.compressBound 3) [1, 2, 3]).1 = -4 ∧
      zlip_compress errZlib (fun _ => 170) [1, 2, 3] = List.replicate 15 170 := by
  decide

/-- Claim C3 (code-bug evidence): when `max_dest_len` (here 2) is smaller
than the true decompressed size (here 4), the native `uncompress` reports
`Z_BUF_ERROR` (-5), yet `zlib_uncompress` returns the truncated 2-byte
prefix instead of failing. -/
theorem c3_uncompress_truncates_without_error :
    (specZlib.uncompressFn 2 [10, 20, 30, 40]).1 = -5 ∧
      zlib_uncompress specZlib (fun _ => 0) [10, 20, 30, 40] 2 = [10, 20] := by
  decide

/-- Claim C4: the logical length of the buffer returned by `zlip_compress`
never exceeds the precomputed `compressBound` capacity, and the logical
length of the buffer returned by `zlib_uncompress` never exceeds the
caller-supplied `max_dest_len` capacity. -/
theorem c4_truncation_invariant (z : Zlib) (mem mem' : Nat → Nat) (s t : List Nat)
    (max_dest_len : Nat) :
    (zlip_compress z mem s).length ≤ z.compressBound s.length ∧
      (zlib_uncompress z mem' t max_dest_len).length ≤ max_dest_len :=
  ⟨length_zlip_compress_le z mem s, length_zlib_uncompress_le z mem' t max_dest_len⟩

/-- Claim C5: for a gz file whose decompressed content arrives as in-order
chunks, each at most the 4095-byte read request and each valid UTF-8,
`read_gz_file` returns exactly the concatenation of all chunks, and the
handle is closed. -/
theorem c5_reader_completeness (g : GzSpec) (name : List Nat) (chunks : List (List Nat))
    (hname : name.contains 0 = false)
    (hopen : g.openFile name = some (chunks.map fun c => ((c.length : Int), c)))
    (hlen : ∀ c ∈ chunks, c.length ≤ 4095)
    (hutf : ∀ c ∈ chunks, validUTF8 c = true) :
    read_gz_file g name = (some chunks.flatten, true) := by
  rw [read_gz_file_open g name _ hname hopen,
    readRun_chunks chunks _ _ (List.length_replicate 4096 0) hlen hutf]
  simp

/-- Witness for C5: a two-chunk file is reassembled in order. -/
theorem c5_reader_completeness_witness :
    read_gz_file gC5 [102] = (some [104, 105, 33], true) :=
  c5_reader_completeness gC5 [102] [[104, 105], [33]] (by decide) (by decide)
    (by decide) (by decide)

/-- Claim C6 (code-bug evidence): a mid-stream chunk that is not valid UTF-8
makes the reader panic at the `unwrap` before `gzclose` is ever reached: the
run ends in the panic outcome with the handle not closed. -/
theorem c6_handle_not_closed_on_decode_failure :
    read_gz_file gC6 [102] = (none, false) := by
  rw [read_gz_file_open gC6 [102] _ (by decide) rfl,
    readRun_cons 1 [255] _ _ _ (by decide) (List.length_replicate 4096 0) (by decide),
    if_neg (by decide)]

/-- Claim C7: the read loop exits exactly when `gzeof` reports end of
stream (the read results are exhausted), returning the accumulated contents
and closing the handle; a single `gzread` returning zero bytes does not
stop the loop, which proceeds to the remaining reads unchanged. -/
theorem c7_loop_terminates_on_eof :
    (∀ buffer contents : List Nat, readRun [] buffer contents = (some contents, true)) ∧
      (∀ (rest : List (Int × List Nat)) (buffer contents : List Nat),
        readRun (((0 : Int), ([] : List Nat)) :: rest) buffer contents =
          readRun rest buffer contents) := by
  constructor
  · intro buffer contents
    rfl
  · intro rest buffer contents
    have h0 : castUsize 0 = 0 := by decide
    simp [readRun, h0, validUTF8]

/-- Claim C8 (code-bug evidence): a `gzread` returning the negative native
code -3 is cast with `as usize` to 2^64 - 3 and used as the byte count for
the buffer slice, which panics because it exceeds the 4096-byte buffer; no
`ReadError` value carrying the code is produced, and the handle is not
closed. -/
theorem c8_negative_read_treated_as_count :
    castUsize (-3) = 18446744073709551613 ∧ read_gz_file gC8 [102] = (none, false) := by
  refine ⟨by decide, ?_⟩
  rw [read_gz_file_open gC8 [102] _ (by decide) rfl]
  have hcast : castUsize (-3) = 18446744073709551613 := by decide
  have hlen : ((([] : List Nat) ++
      (List.replicate 4096 (0 : Nat)).drop (List.length ([] : List Nat))).length) = 4096 := by
    rw [List.nil_append, List.length_nil, List.drop_zero, List.length_replicate]
  simp only [readRun]
  rw [if_pos (by rw [hcast, hlen]; omega)]

/-- Claim C9: the spec-modelled `compressBound` is non-decreasing, and the
compressed size produced by `zlip_compress` over the conforming native
model never exceeds `compressBound` of the input length. -/
theorem c9_compressBound_monotone_and_bounds :
    (∀ m n : Nat, m ≤ n → specZlib.compressBound m ≤ specZlib.compressBound n) ∧
      (∀ (mem : Nat → Nat) (s : List Nat),
        (zlip_compress specZlib mem s).length ≤ specZlib.compressBound s.length) := by
  constructor
  · intro m n h
    simp only [specZlib]
    omega
  · intro mem s
    exact length_zlip_compress_le specZlib mem s

/-- Witness for C9 at concrete lengths and input. -/
theorem c9_compressBound_monotone_and_bounds_witness :
    specZlib.compressBound 3 ≤ specZlib.compressBound 17 ∧
      (zlip_compress specZlib (fun _ => 0) [1, 2, 3]).length ≤ specZlib.compressBound 3 :=
  ⟨c9_compressBound_monotone_and_bounds.1 3 17 (by decide),
    c9_compressBound_monotone_and_bounds.2 (fun _ => 0) [1, 2, 3]⟩

/-- Claim C10: none of the public operations returns an error value; the
wrappers' results are plain byte buffers by construction, and every failure
path of `read_gz_file` — an interior NUL in the file name
(`CString::new` fails), a null handle from `gzopen`, or a chunk that is not
valid UTF-8 — ends in the panic outcome rather than a catchable error. -/
theorem c10_failures_are_panics :
    (∀ (g : GzSpec) (name : List Nat), name.contains 0 = true →
      read_gz_file g name = (none, false)) ∧
      (∀ (g : GzSpec) (name : List Nat), name.contains 0 = false →
        g.openFile name = none → read_gz_file g name = (none, false)) ∧
      (∀ (g : GzSpec) (name : List Nat) (c : List Nat) (rest : List (Int × List Nat)),
        name.contains 0 = false →
        g.openFile name = some (((c.length : Int), c) :: rest) →
        c.length ≤ 4095 → validUTF8 c = false →
        read_gz_file g name = (none, false)) := by
  refine ⟨?_, ?_, ?_⟩
  · intro g name h
    unfold read_gz_file
    rw [if_pos h]
  · intro g name h0 hopen
    simp only [read_gz_file, h0, hopen, Bool.false_eq_true, if_false]
  · intro g name c rest h0 hopen hlen hinvalid
    rw [read_gz_file_open g name _ h0 hopen,
      readRun_cons _ c rest _ _ rfl (List.length_replicate 4096 0) hlen,
      if_neg (by simp [hinvalid])]

/-- Witness for C10: each failure path evaluated on a concrete oracle. -/
theorem c10_failures_are_panics_witness :
    read_gz_file gNone [0] = (none, false) ∧
      read_gz_file gNone [102] = (none, false) ∧
      read_gz_file gBad [103] = (none, false) :=
  ⟨c10_failures_are_panics.1 gNone [0] (by decide),
    c10_failures_are_panics.2.1 gNone [102] (by decide) rfl,
    c10_failures_are_panics.2.2 gBad [103] [200] [] (by decide) (by decide) (by decide)
      (by decide)⟩
